import Mathlib

/-!
Verification of the matrix load-testing tool core (src/lib.rs, src/user.rs,
src/main.rs) through a shallow embedding in Lean. Users are identified by
their numeric ids; randomness is passed in explicitly as draw streams;
network responses are passed in as explicit outcome values, mirroring the
outcome enums of the wire client. The `f32` friendship ratio is embedded as
an exact rational.
-/

/-- The request kinds of `UserRequest` in src/user.rs. -/
inductive UserRequest
  | register
  | login
  | createRoom
  | joinRoom
  | sendMessage
deriving DecidableEq, Repr

/-- Modelled from the spec: `mod events` is declared in src/lib.rs but
`events.rs` is not under src/. Spec section 3 gives the Event tagged union:
`RequestDuration(actionKind, duration) | Error(actionKind, cause) |
MessageSent(id) | MessageReceived(id) | AllMessagesSent | Finish`.
Durations are embedded as naturals; the error cause is dropped. -/
inductive Event
  | RequestDuration (kind : UserRequest) (duration : Nat)
  | Error (kind : UserRequest)
  | MessageSent (id : String)
  | MessageReceived (id : String)
  | AllMessagesSent
  | Finish
deriving DecidableEq, Repr

/-- Modelled from the spec: `mod friendship` is declared in src/lib.rs but
`friendship.rs` is not under src/. Spec section 3: a Friendship is an
unordered pair of user identities, and section 4.2: pair ordering is
canonicalized for comparison. -/
structure Friendship where
  first : Nat
  second : Nat
deriving DecidableEq, Repr

/-- Modelled from the spec: `Friendship::from_users` canonicalizes the pair
ordering, so the smaller user id always comes first. -/
def Friendship.from_users (a b : Nat) : Friendship :=
  if a ≤ b then ⟨a, b⟩ else ⟨b, a⟩

/-- The fields of `State` (src/lib.rs) used by the friendship generator:
the configured friendship ratio, the friendship set, and the user
population (users are their ids). -/
structure State where
  friendship_ratio : ℚ
  friendships : List Friendship
  users : List Nat
deriving DecidableEq, Repr

/-- `State::calculate_step_friendships` (src/lib.rs lines 110-114):
`max_friendships = n * (n - 1) / 2` in integer arithmetic, then
`(max_friendships as f32 * friendship_ratio).ceil() as usize`. -/
def calculate_step_friendships (s : State) : Nat :=
  let total_users := s.users.length
  let max_friendships := total_users * (total_users - 1) / 2
  (⌈(max_friendships : ℚ) * s.friendship_ratio⌉).toNat

/-- `State::get_random_friendship` (src/lib.rs lines 145-161): rejection
sampling. Each draw `(i, j)` picks two users uniformly (modelled by
indexing the population modulo its size); identical users or an already
present canonical pair cause a retry with the next draw; otherwise the
canonical pair is pushed onto the friendship list. Returns the new pair,
the updated state and the unused draws, or `none` when the draw stream is
exhausted. -/
def get_random_friendship (s : State) :
    List (Nat × Nat) → Option (Friendship × State × List (Nat × Nat))
  | [] => none
  | (i, j) :: rest =>
    let n := s.users.length
    let first_user := s.users.getD (i % n) 0
    let second_user := s.users.getD (j % n) 0
    if first_user = second_user then get_random_friendship s rest
    else
      let friendship := Friendship.from_users first_user second_user
      if friendship ∈ s.friendships then get_random_friendship s rest
      else some (friendship, { s with friendships := s.friendships ++ [friendship] }, rest)

/-- The `while self.friendships.len() < amount_of_friendships` loop of
`State::init_friendships` (src/lib.rs lines 129-133). The fuel argument
only bounds recursion; a run out of fuel with the target not yet reached is
reported as `none`, exactly like an exhausted draw stream. -/
def init_friendships_loop (amount : Nat) :
    Nat → State → List (Nat × Nat) → Option State
  | 0, s, _ => if s.friendships.length < amount then none else some s
  | fuel + 1, s, draws =>
    if s.friendships.length < amount then
      match get_random_friendship s draws with
      | none => none
      | some (_, s2, rest) => init_friendships_loop amount fuel s2 rest
    else some s

/-- `State::init_friendships` (src/lib.rs lines 116-143): compute the step
target once, then loop until the friendship list reaches it. Since every
loop iteration consumes at least one draw, `draws.length` is enough fuel. -/
def init_friendships (s : State) (draws : List (Nat × Nat)) : Option State :=
  init_friendships_loop (calculate_step_friendships s) draws.length s draws

/-- The sequence of states passed through by the `init_friendships` loop,
starting state included, used to express invariants that hold at every
point during the loop. -/
def init_friendships_states (amount : Nat) :
    Nat → State → List (Nat × Nat) → List State
  | 0, s, _ => [s]
  | fuel + 1, s, draws =>
    if s.friendships.length < amount then
      match get_random_friendship s draws with
      | none => [s]
      | some (_, s2, rest) => s :: init_friendships_states amount fuel s2 rest
    else [s]

/-- The friendship-set invariant of spec section 3: no duplicate pairs and
no self-pairs. -/
def FriendshipsOk (l : List Friendship) : Prop :=
  l.Nodup ∧ ∀ f ∈ l, f.first ≠ f.second

instance : DecidablePred FriendshipsOk := fun l =>
  inferInstanceAs (Decidable (l.Nodup ∧ ∀ f ∈ l, f.first ≠ f.second))

/-- One reservoir-sampling update of `IteratorRandom::choose_multiple` as
used by `State::act` (src/lib.rs line 185): element `i` replaces slot `k`
of the buffer when `k` falls inside it. -/
def reservoir_insert (amount i k : Nat) (buf : List Nat) : List Nat :=
  if k < amount then buf.set k i else buf

/-- `self.users.iter().choose_multiple(&mut rng, amount)` over a population
of `n` users, the users denoted by their positions `0..n`: fill the buffer
with the first `amount` positions, then for each later position `i` draw
`k` uniformly from `0..i+1` and replace slot `k` when `k < amount`. -/
def choose_multiple (draws : Nat → Nat) (n amount : Nat) : List Nat :=
  (List.range' amount (n - amount)).foldl
    (fun buf i => reservoir_insert amount i (draws i % (i + 1)) buf)
    (List.range (min amount n))

/-- `users_to_act` of `State::act` (src/lib.rs line 166):
`min(self.users.len(), self.config.max_users_to_act_per_tick)`. -/
def users_to_act (num_users max_per_tick : Nat) : Nat :=
  min num_users max_per_tick

/-- The per-tick user selection of `State::act` (src/lib.rs line 185). -/
def tick_selection (draws : Nat → Nat) (num_users max_per_tick : Nat) :
    List Nat :=
  choose_multiple draws num_users (users_to_act num_users max_per_tick)

/-- A task spawned by `controller.spawn` in `State::act` (src/lib.rs lines
187-192); it drives exactly one user. -/
structure SpawnedTask where
  user : Nat
deriving DecidableEq, Repr

/-- The spawning loop of `State::act`: one task per selected user. -/
def tick_spawn (selection : List Nat) : List SpawnedTask :=
  selection.map SpawnedTask.mk

/-- The lifecycle states of the typestate user model in src/user.rs:
`Disconnected`, `Registered`, `LoggedIn`, `Synching`. -/
inductive LifecycleState
  | disconnected
  | registered
  | loggedIn
  | synching
deriving DecidableEq, Repr

/-- The outcomes of `client.register` distinguished by
`User<Disconnected>::register` (src/user.rs lines 149-189): success, a
Uiaa matrix error (whose kind may or may not be `UserInUse`), or any other
error. -/
inductive RegisterResponse
  | ok
  | uiaaMatrixError (user_in_use : Bool)
  | otherError
deriving DecidableEq, Repr

/-- `User<Disconnected>::register` (src/user.rs lines 138-190), as the pair
of the reached state (`none` = still unregistered) and the events sent:
success emits a `RequestDuration`; a Uiaa matrix error of kind `UserInUse`
re-creates the client and proceeds as registered without emitting anything;
a Uiaa matrix error of any other kind emits nothing and fails; every other
error emits an `Error` and fails. -/
def register (resp : RegisterResponse) (elapsed : Nat) :
    Option LifecycleState × List Event :=
  match resp with
  | .ok => (some .registered, [.RequestDuration .register elapsed])
  | .uiaaMatrixError user_in_use =>
      if user_in_use then (some .registered, []) else (none, [])
  | .otherError => (none, [.Error .register])

/-- The outcomes of `client.login` distinguished by
`User<Registered>::login` (src/user.rs lines 204-225): success, an HTTP
error, or any other error. -/
inductive LoginResponse
  | ok
  | httpError
  | otherError
deriving DecidableEq, Repr

/-- `User<Registered>::login` (src/user.rs lines 194-226): success emits a
`RequestDuration` and reaches `LoggedIn`; an HTTP error emits an `Error`;
any other error emits nothing; both failures stay registered (`none`). -/
def login (resp : LoginResponse) (elapsed : Nat) :
    Option LifecycleState × List Event :=
  match resp with
  | .ok => (some .loggedIn, [.RequestDuration .login elapsed])
  | .httpError => (none, [.Error .login])
  | .otherError => (none, [])

/-- The outcome of `client.create_room` / `client.join_room_by_id`: success
carries a room id (rooms are numeric here). -/
inductive RoomResponse
  | ok (room_id : Nat)
  | err
deriving DecidableEq, Repr

/-- `User<Synching>::create_room` (src/user.rs lines 266-286): success
emits a `RequestDuration` and returns the room id; failure emits an
`Error`. -/
def create_room (resp : RoomResponse) (elapsed : Nat) :
    Option Nat × List Event :=
  match resp with
  | .ok room_id => (some room_id, [.RequestDuration .createRoom elapsed])
  | .err => (none, [.Error .createRoom])

/-- `User<Synching>::join_room` (src/user.rs lines 288-305): success emits
a `RequestDuration` and pushes the response's room id onto the user's room
list; failure emits an `Error` and leaves the rooms unchanged. -/
def join_room (rooms : List Nat) (resp : RoomResponse) (elapsed : Nat) :
    List Nat × List Event :=
  match resp with
  | .ok room_id => (rooms ++ [room_id], [.RequestDuration .joinRoom elapsed])
  | .err => (rooms, [.Error .joinRoom])

/-- The outcomes of `room.send` distinguished by `User<Synching>::act`
(src/user.rs lines 322-339): success with the new event id, an HTTP error,
or any other error. -/
inductive SendMessageResponse
  | ok (event_id : String)
  | httpError
  | otherError
deriving DecidableEq, Repr

/-- The observable result of one `User<Synching>::act` call: the room list
afterwards, the events sent, and whether the server was contacted. -/
structure ActResult where
  rooms : List Nat
  events : List Event
  contacted_server : Bool
deriving DecidableEq, Repr

/-- `User<Synching>::act` (src/user.rs lines 307-343): with no known rooms
it returns at once; otherwise it picks the room at the drawn index
(`gen_range(0..len)`, modelled as `draw % len`) and, when the client still
has that room as joined, sends one message there: success emits a
`RequestDuration` and a `MessageSent`, an HTTP error emits an `Error`, any
other error emits nothing. When the room is not joined nothing happens. -/
def act (rooms : List Nat) (_draw : Nat) (joined_room : Bool)
    (resp : SendMessageResponse) (elapsed : Nat) : ActResult :=
  if rooms.length = 0 then ⟨rooms, [], false⟩
  else if joined_room then
    match resp with
    | .ok event_id =>
        ⟨rooms, [.RequestDuration .sendMessage elapsed, .MessageSent event_id], true⟩
    | .httpError => ⟨rooms, [.Error .sendMessage], true⟩
    | .otherError => ⟨rooms, [], true⟩
  else ⟨rooms, [], false⟩

/-- The social action a `Synching` user performs in one `act` call. -/
inductive UserAction
  | noAction
  | sendMessageTo (room : Nat)
  | logOut
  | updateStatus
  | addFriend
deriving DecidableEq, Repr

/-- The action selected by `User<Synching>::act` (src/user.rs lines
307-343): nothing when the room list is empty, otherwise a message to the
room at the drawn index. -/
def act_action (rooms : List Nat) (draw : Nat) : UserAction :=
  if rooms.length = 0 then .noAction
  else .sendMessageTo (rooms.getD (draw % rooms.length) 0)

/-- Modelled from the spec (section 4.1), for comparison with `act_action`,
not from the source: with an empty pending-event queue the action is chosen
by nested Bernoulli trials evaluated in order, 1/50 log out, else 1/25
update status, else 1/3 add a friend, else send a message to a random known
room. Each trial is a uniform draw taken modulo its denominator, succeeding
on 0. -/
def act_action_spec (rooms : List Nat) (pending_empty : Bool)
    (draw1 draw2 draw3 draw_room : Nat) : UserAction :=
  if pending_empty then
    if draw1 % 50 = 0 then .logOut
    else if draw2 % 25 = 0 then .updateStatus
    else if draw3 % 3 = 0 then .addFriend
    else .sendMessageTo (rooms.getD (draw_room % rooms.length) 0)
  else .noAction

/-- What a producer does after `tx.send(..)` returns. -/
inductive SendOutcome
  | continued
  | panicked
deriving DecidableEq, Repr

/-- A send on the aggregator mpsc channel: it fails exactly when the
channel is closed (the receive side dropped). -/
def channel_send (channel_open : Bool) : Except Unit Unit :=
  if channel_open then .ok () else .error ()

/-- `User::send` (src/user.rs lines 67-73): a failed send is only logged
("Receiver dropped"); the producer continues either way. -/
def user_send (channel_open : Bool) : SendOutcome :=
  match channel_send channel_open with
  | .ok _ => .continued
  | .error _ => .continued

/-- The `tx.send(..).await.expect(..)` pattern of `State::act` (src/lib.rs
lines 207-209), `State::waiting_period` (line 241) and `on_room_message`
(src/user.rs lines 418-421): a failed send panics, aborting the run. -/
def send_expect (channel_open : Bool) : SendOutcome :=
  match channel_send channel_open with
  | .ok _ => .continued
  | .error _ => .panicked

/-- The polling loop of `State::waiting_period` (src/lib.rs lines 224-239)
on a one-second clock: with `elapsed` seconds passed, exit when
`all_messages_received()` holds; otherwise exit when the waiting period has
elapsed; otherwise wait one more second. Returns the exit time. -/
def waiting_period_loop (all_received : Nat → Bool) (waiting_time : Nat)
    (elapsed : Nat) : Nat :=
  if all_received elapsed then elapsed
  else if h : waiting_time ≤ elapsed then elapsed
  else waiting_period_loop all_received waiting_time (elapsed + 1)
termination_by waiting_time - elapsed
decreasing_by omega

/-- `State::waiting_period` (src/lib.rs lines 212-242): run the polling
loop from time zero, then send exactly one `Finish` event. Returns the
exit time and the events sent after the loop. -/
def waiting_period (all_received : Nat → Bool) (waiting_time : Nat) :
    Nat × List Event :=
  (waiting_period_loop all_received waiting_time 0, [Event.Finish])

/-- The kind of room handed to the sync event handler (`Room` of the
client: joined, invited or left). -/
inductive RoomKind
  | joinedRoom
  | invitedRoom
  | leftRoom
deriving DecidableEq, Repr

/-- `on_room_message` (src/user.rs lines 408-429): only for a joined room
and only when the message's sender localpart differs from the receiving
user's localpart, a `MessageReceived` event is emitted. -/
def on_room_message (room : RoomKind) (sender_localpart user_localpart : String)
    (event_id : String) : List Event :=
  match room with
  | .joinedRoom =>
      if sender_localpart = user_localpart then []
      else [Event.MessageReceived event_id]
  | _ => []

theorem Friendship.from_users_ne {a b : Nat} (h : a ≠ b) :
    (Friendship.from_users a b).first ≠ (Friendship.from_users a b).second := by
  unfold Friendship.from_users
  split <;> simpa using fun h2 => h (by omega)

theorem get_random_friendship_eq (s : State) :
    ∀ (draws : List (Nat × Nat)) (f : Friendship) (s2 : State)
      (rest : List (Nat × Nat)),
      get_random_friendship s draws = some (f, s2, rest) →
      s2.friendship_ratio = s.friendship_ratio ∧ s2.users = s.users ∧
        s2.friendships = s.friendships ++ [f] ∧ f ∉ s.friendships ∧
        f.first ≠ f.second := by
  intro draws
  induction draws with
  | nil => intro f s2 rest h; simp [get_random_friendship] at h
  | cons d rest0 ih =>
    intro f s2 rest h
    obtain ⟨i, j⟩ := d
    simp only [get_random_friendship] at h
    by_cases h1 : s.users.getD (i % s.users.length) 0
        = s.users.getD (j % s.users.length) 0
    · rw [if_pos h1] at h
      exact ih f s2 rest h
    · rw [if_neg h1] at h
      by_cases h2 : Friendship.from_users (s.users.getD (i % s.users.length) 0)
          (s.users.getD (j % s.users.length) 0) ∈ s.friendships
      · rw [if_pos h2] at h
        exact ih f s2 rest h
      · rw [if_neg h2] at h
        simp only [Option.some.injEq, Prod.mk.injEq] at h
        obtain ⟨h3, h4, h5⟩ := h
        subst h3; subst h4
        exact ⟨rfl, rfl, rfl, h2, Friendship.from_users_ne h1⟩

theorem init_friendships_loop_length (amount : Nat) :
    ∀ (fuel : Nat) (s : State) (draws : List (Nat × Nat)) (s2 : State),
      s.friendships.length ≤ amount →
      init_friendships_loop amount fuel s draws = some s2 →
      s2.friendships.length = amount := by
  intro fuel
  induction fuel with
  | zero =>
    intro s draws s2 hle h
    simp only [init_friendships_loop] at h
    by_cases hlt : s.friendships.length < amount
    · rw [if_pos hlt] at h; exact absurd h (by simp)
    · rw [if_neg hlt] at h
      obtain rfl : s = s2 := Option.some.inj h
      omega
  | succ fuel ih =>
    intro s draws s2 hle h
    simp only [init_friendships_loop] at h
    by_cases hlt : s.friendships.length < amount
    · rw [if_pos hlt] at h
      cases hg : get_random_friendship s draws with
      | none => rw [hg] at h; exact absurd h (by simp)
      | some t =>
        obtain ⟨f, s3, rest⟩ := t
        rw [hg] at h
        obtain ⟨-, -, hfr, -, -⟩ := get_random_friendship_eq s draws f s3 rest hg
        have hlen : s3.friendships.length = s.friendships.length + 1 := by
          rw [hfr]; simp
        exact ih s3 rest s2 (by omega) h
    · rw [if_neg hlt] at h
      obtain rfl : s = s2 := Option.some.inj h
      omega

theorem calculate_step_friendships_ceil (s : State) (hn : 1 ≤ s.users.length) :
    calculate_step_friendships s
      = (⌈s.friendship_ratio
            * ((s.users.length * (s.users.length - 1) : ℕ) : ℚ) / 2⌉).toNat := by
  have h2 : (2 : ℕ) ∣ s.users.length * (s.users.length - 1) := by
    obtain ⟨n, hn2⟩ : ∃ n, s.users.length = n + 1 := ⟨s.users.length - 1, by omega⟩
    rw [hn2]
    simpa [Nat.mul_comm] using (Nat.even_mul_succ_self n).two_dvd
  have hcast : ((s.users.length * (s.users.length - 1) / 2 : ℕ) : ℚ)
      = ((s.users.length * (s.users.length - 1) : ℕ) : ℚ) / 2 := by
    rw [Nat.cast_div h2 (by norm_num)]
    norm_num
  show (⌈((s.users.length * (s.users.length - 1) / 2 : ℕ) : ℚ)
      * s.friendship_ratio⌉).toNat = _
  rw [hcast]
  congr 1
  ring_nf

theorem init_friendships_states_head (amount fuel : Nat) (s : State)
    (draws : List (Nat × Nat)) :
    (init_friendships_states amount fuel s draws).head? = some s := by
  cases fuel with
  | zero => rfl
  | succ fuel =>
    simp only [init_friendships_states]
    by_cases hlt : s.friendships.length < amount
    · rw [if_pos hlt]
      cases get_random_friendship s draws with
      | none => rfl
      | some t => obtain ⟨f, s2, rest⟩ := t; rfl
    · rw [if_neg hlt]; rfl

theorem init_friendships_states_invariant (amount : Nat) :
    ∀ (fuel : Nat) (s : State) (draws : List (Nat × Nat)),
      FriendshipsOk s.friendships → s.friendships.length ≤ amount →
      (∀ st ∈ init_friendships_states amount fuel s draws,
          FriendshipsOk st.friendships ∧ st.friendships.length ≤ amount)
      ∧ List.Chain' (fun a b => a.friendships <+: b.friendships)
          (init_friendships_states amount fuel s draws) := by
  intro fuel
  induction fuel with
  | zero =>
    intro s draws hok hle
    refine ⟨?_, by simp [init_friendships_states]⟩
    intro st hst
    simp only [init_friendships_states, List.mem_singleton] at hst
    subst hst
    exact ⟨hok, hle⟩
  | succ fuel ih =>
    intro s draws hok hle
    simp only [init_friendships_states]
    by_cases hlt : s.friendships.length < amount
    · rw [if_pos hlt]
      cases hg : get_random_friendship s draws with
      | none =>
        refine ⟨?_, by simp⟩
        intro st hst
        simp only [List.mem_singleton] at hst
        subst hst
        exact ⟨hok, hle⟩
      | some t =>
        obtain ⟨f, s2, rest⟩ := t
        obtain ⟨-, -, hfr, hnotmem, hne⟩ :=
          get_random_friendship_eq s draws f s2 rest hg
        have hok2 : FriendshipsOk s2.friendships := by
          rw [hfr]
          constructor
          · refine hok.1.append (List.nodup_singleton f) ?_
            intro a ha hb
            simp only [List.mem_singleton] at hb
            subst hb
            exact hnotmem ha
          · intro g hg2
            rcases List.mem_append.mp hg2 with hmem | hmem
            · exact hok.2 g hmem
            · simp only [List.mem_singleton] at hmem
              subst hmem
              exact hne
        have hle2 : s2.friendships.length ≤ amount := by
          rw [hfr]; simp; omega
        obtain ⟨hall, hchain⟩ := ih s2 rest hok2 hle2
        constructor
        · intro st hst
          rcases List.mem_cons.mp hst with rfl | hst
          · exact ⟨hok, hle⟩
          · exact hall st hst
        · rw [List.chain'_cons']
          refine ⟨?_, hchain⟩
          intro h2 hh2
          rw [init_friendships_states_head] at hh2
          cases Option.some.inj hh2
          rw [hfr]
          exact List.prefix_append _ _
    · rw [if_neg hlt]
      refine ⟨?_, by simp⟩
      intro st hst
      simp only [List.mem_singleton] at hst
      subst hst
      exact ⟨hok, hle⟩

/-- C1: for a population of at least two users, the per-step friendship
target of `calculate_step_friendships` is the ceiling of
`ratio * n * (n - 1) / 2`, and whenever `init_friendships` completes it has
grown the friendship list to exactly that target cardinality. -/
theorem friendship_target_correct (s : State) (draws : List (Nat × Nat))
    (s2 : State) (hn : 2 ≤ s.users.length)
    (hle : s.friendships.length ≤ calculate_step_friendships s)
    (h : init_friendships s draws = some s2) :
    calculate_step_friendships s
        = (⌈s.friendship_ratio
              * ((s.users.length * (s.users.length - 1) : ℕ) : ℚ) / 2⌉).toNat
      ∧ s2.friendships.length = calculate_step_friendships s :=
  ⟨calculate_step_friendships_ceil s (by omega),
    init_friendships_loop_length (calculate_step_friendships s) draws.length
      s draws s2 hle h⟩

theorem calc_eval_three_users :
    calculate_step_friendships (State.mk 1 [] [0, 1, 2]) = 3 := by
  norm_num [calculate_step_friendships]
  rfl

theorem init_eval_three_users :
    init_friendships (State.mk 1 [] [0, 1, 2]) [(0, 1), (0, 2), (1, 2)]
      = some (State.mk 1 [⟨0, 1⟩, ⟨0, 2⟩, ⟨1, 2⟩] [0, 1, 2]) := by
  rw [init_friendships, calc_eval_three_users]
  decide

/-- C1 witness: three users, ratio one, three draws reach the target of
three friendships. -/
theorem friendship_target_correct_witness :
    2 ≤ (State.mk 1 [] [0, 1, 2]).users.length
    ∧ (State.mk 1 [] [0, 1, 2]).friendships.length
        ≤ calculate_step_friendships (State.mk 1 [] [0, 1, 2])
    ∧ init_friendships (State.mk 1 [] [0, 1, 2]) [(0, 1), (0, 2), (1, 2)]
        = some (State.mk 1 [⟨0, 1⟩, ⟨0, 2⟩, ⟨1, 2⟩] [0, 1, 2])
    ∧ (calculate_step_friendships (State.mk 1 [] [0, 1, 2])
          = (⌈(State.mk 1 [] [0, 1, 2]).friendship_ratio
                * (((State.mk 1 [] [0, 1, 2]).users.length
                    * ((State.mk 1 [] [0, 1, 2]).users.length - 1) : ℕ) : ℚ)
                / 2⌉).toNat
        ∧ (State.mk 1 [⟨0, 1⟩, ⟨0, 2⟩, ⟨1, 2⟩] [0, 1, 2]).friendships.length
            = calculate_step_friendships (State.mk 1 [] [0, 1, 2])) :=
  ⟨by decide, by rw [calc_eval_three_users]; decide, init_eval_three_users,
    friendship_target_correct (State.mk 1 [] [0, 1, 2])
      [(0, 1), (0, 2), (1, 2)] (State.mk 1 [⟨0, 1⟩, ⟨0, 2⟩, ⟨1, 2⟩] [0, 1, 2])
      (by decide) (by rw [calc_eval_three_users]; decide) init_eval_three_users⟩

/-- C3: starting from a friendship set satisfying the set invariant and not
above the step target, every state passed through by the
`init_friendships` loop has no self-pair and no repeated pair, its
cardinality never exceeds the step target, and along the run the
friendship list only grows (each state's list is a prefix of the next
one's, so the cardinality is monotonically non-decreasing). -/
theorem init_friendships_invariants (s : State) (draws : List (Nat × Nat))
    (hok : FriendshipsOk s.friendships)
    (hle : s.friendships.length ≤ calculate_step_friendships s) :
    (∀ st ∈ init_friendships_states (calculate_step_friendships s)
        draws.length s draws,
        FriendshipsOk st.friendships
          ∧ st.friendships.length ≤ calculate_step_friendships s)
    ∧ List.Chain' (fun a b => a.friendships <+: b.friendships)
        (init_friendships_states (calculate_step_friendships s)
          draws.length s draws) :=
  init_friendships_states_invariant (calculate_step_friendships s)
    draws.length s draws hok hle

/-- C3 witness: the invariants instantiated on a concrete three-user run. -/
theorem init_friendships_invariants_witness :
    FriendshipsOk (State.mk 1 [] [0, 1, 2]).friendships
    ∧ (State.mk 1 [] [0, 1, 2]).friendships.length
        ≤ calculate_step_friendships (State.mk 1 [] [0, 1, 2])
    ∧ ((∀ st ∈ init_friendships_states
          (calculate_step_friendships (State.mk 1 [] [0, 1, 2]))
          ([(0, 1), (0, 2), (1, 2)] : List (Nat × Nat)).length
          (State.mk 1 [] [0, 1, 2]) [(0, 1), (0, 2), (1, 2)],
          FriendshipsOk st.friendships
            ∧ st.friendships.length
                ≤ calculate_step_friendships (State.mk 1 [] [0, 1, 2]))
        ∧ List.Chain' (fun a b => a.friendships <+: b.friendships)
            (init_friendships_states
              (calculate_step_friendships (State.mk 1 [] [0, 1, 2]))
              ([(0, 1), (0, 2), (1, 2)] : List (Nat × Nat)).length
              (State.mk 1 [] [0, 1, 2]) [(0, 1), (0, 2), (1, 2)])) :=
  ⟨by decide, by rw [calc_eval_three_users]; decide,
    init_friendships_invariants (State.mk 1 [] [0, 1, 2])
      [(0, 1), (0, 2), (1, 2)] (by decide)
      (by rw [calc_eval_three_users]; decide)⟩

/-- C4: from the unregistered state, `register` reaches the registered
state exactly when the server answers `Ok` or with the already-exists
(`UserInUse`) error; any other failure leaves the user unregistered. -/
theorem register_outcome (resp : RegisterResponse) (elapsed : Nat) :
    ((register resp elapsed).1 = some LifecycleState.registered
      ↔ resp = RegisterResponse.ok ∨ resp = RegisterResponse.uiaaMatrixError true)
    ∧ ((register resp elapsed).1 = none
      ↔ ¬(resp = RegisterResponse.ok
          ∨ resp = RegisterResponse.uiaaMatrixError true)) := by
  cases resp with
  | ok => simp [register]
  | uiaaMatrixError b => cases b <;> simp [register]
  | otherError => simp [register]

/-- C2 counterexample: the spec's Bernoulli chooser can select the log-out
action (first draw succeeding), but the code's `act` on the same state
sends a message to the only known room; `act` has no log-out branch at
all. -/
theorem act_no_bernoulli_counterexample :
    act_action_spec [5] true 0 0 0 0 = UserAction.logOut
    ∧ act_action [5] 0 = UserAction.sendMessageTo 5
    ∧ UserAction.sendMessageTo 5 ≠ UserAction.logOut := by decide

/-- C2 amended: `User<Synching>::act` performs no probabilistic action
selection and keeps no pending-event queue: whenever the known-room list
is non-empty, the action is always to send a message to the room at the
randomly drawn index; log-out, status-update and add-friend never occur. -/
theorem act_always_sends_message (rooms : List Nat) (draw : Nat)
    (h : rooms ≠ []) :
    act_action rooms draw
      = UserAction.sendMessageTo (rooms.getD (draw % rooms.length) 0)
    ∧ ∀ other : UserAction, act_action rooms draw = other →
        other ≠ UserAction.logOut ∧ other ≠ UserAction.updateStatus
          ∧ other ≠ UserAction.addFriend := by
  have hlen : rooms.length ≠ 0 := fun hc => h (List.length_eq_zero.mp hc)
  constructor
  · simp [act_action, hlen]
  · intro other hother
    subst hother
    simp [act_action, hlen]

/-- C2 amended witness: one known room, draw three. -/
theorem act_always_sends_message_witness :
    ([7] : List Nat) ≠ []
    ∧ (act_action [7] 3
        = UserAction.sendMessageTo (([7] : List Nat).getD (3 % ([7] : List Nat).length) 0)
      ∧ ∀ other : UserAction, act_action [7] 3 = other →
          other ≠ UserAction.logOut ∧ other ≠ UserAction.updateStatus
            ∧ other ≠ UserAction.addFriend) :=
  ⟨by decide, act_always_sends_message [7] 3 (by decide)⟩

/-- C9: a `Synching` user with no known rooms does nothing in `act`:
the room list is returned unchanged, no event of any kind is emitted, and
the server is not contacted, whatever the drawn index, the room join state
or the would-be response. -/
theorem act_empty_rooms_noop (draw : Nat) (joined : Bool)
    (resp : SendMessageResponse) (elapsed : Nat) (rooms : List Nat)
    (h : rooms = []) :
    act rooms draw joined resp elapsed = ⟨rooms, [], false⟩
      ∧ act_action rooms draw = UserAction.noAction := by
  subst h
  cases joined <;> cases resp <;> simp [act, act_action]

/-- C9 witness: the empty room list with an arbitrary draw and a response
that would have succeeded. -/
theorem act_empty_rooms_noop_witness :
    ([] : List Nat) = []
    ∧ (act [] 4 true (SendMessageResponse.ok "ev") 9 = ⟨[], [], false⟩
      ∧ act_action [] 4 = UserAction.noAction) :=
  ⟨rfl, act_empty_rooms_noop 4 true (SendMessageResponse.ok "ev") 9 [] rfl⟩

/-- C10: the sync event handler emits a `MessageReceived` exactly for a
joined room whose message sender localpart differs from the receiving
user's localpart; a user's own messages and non-joined rooms emit
nothing, and at most one event is ever emitted. -/
theorem on_room_message_spec (room : RoomKind)
    (sender_localpart user_localpart event_id : String) :
    (Event.MessageReceived event_id
        ∈ on_room_message room sender_localpart user_localpart event_id
      ↔ room = RoomKind.joinedRoom ∧ sender_localpart ≠ user_localpart)
    ∧ (sender_localpart = user_localpart →
        on_room_message room sender_localpart user_localpart event_id = [])
    ∧ (on_room_message room sender_localpart user_localpart event_id = []
        ∨ on_room_message room sender_localpart user_localpart event_id
            = [Event.MessageReceived event_id]) := by
  cases room with
  | joinedRoom =>
    by_cases h : sender_localpart = user_localpart <;>
      simp [on_room_message, h]
  | invitedRoom => simp [on_room_message]
  | leftRoom => simp [on_room_message]

/-- C6 counterexample: a register failure with a Uiaa matrix error whose
kind is not `UserInUse` leaves the user unregistered yet emits no event at
all, not the single tagged `Error` event the claim requires. -/
theorem network_event_counterexample :
    (register (RegisterResponse.uiaaMatrixError false) 1).1 = none
    ∧ (register (RegisterResponse.uiaaMatrixError false) 1).2.length = 0
    ∧ (0 : Nat) ≠ 1 := by decide

/-- C6 amended: `create_room` and `join_room` emit exactly one tagged
event, a `RequestDuration` on success and an `Error` on failure; `register`
emits one `RequestDuration` on success, one `Error` on a non-Uiaa failure,
and nothing on a Uiaa matrix error (already-exists or not); `login` and the
message send of `act` emit one `RequestDuration` on success (the send also
a `MessageSent`), one `Error` on an HTTP failure, and nothing on any other
failure. -/
theorem network_event_emission (elapsed room_id draw : Nat)
    (rooms : List Nat) (r : Nat) (b : Bool) (event_id : String) :
    (create_room (RoomResponse.ok room_id) elapsed).2
        = [Event.RequestDuration UserRequest.createRoom elapsed]
    ∧ (create_room RoomResponse.err elapsed).2
        = [Event.Error UserRequest.createRoom]
    ∧ (join_room rooms (RoomResponse.ok room_id) elapsed).2
        = [Event.RequestDuration UserRequest.joinRoom elapsed]
    ∧ (join_room rooms RoomResponse.err elapsed).2
        = [Event.Error UserRequest.joinRoom]
    ∧ (register RegisterResponse.ok elapsed).2
        = [Event.RequestDuration UserRequest.register elapsed]
    ∧ (register (RegisterResponse.uiaaMatrixError b) elapsed).2 = []
    ∧ (register RegisterResponse.otherError elapsed).2
        = [Event.Error UserRequest.register]
    ∧ (login LoginResponse.ok elapsed).2
        = [Event.RequestDuration UserRequest.login elapsed]
    ∧ (login LoginResponse.httpError elapsed).2
        = [Event.Error UserRequest.login]
    ∧ (login LoginResponse.otherError elapsed).2 = []
    ∧ (act (r :: rooms) draw true (SendMessageResponse.ok event_id)
          elapsed).events
        = [Event.RequestDuration UserRequest.sendMessage elapsed,
            Event.MessageSent event_id]
    ∧ (act (r :: rooms) draw true SendMessageResponse.httpError
          elapsed).events
        = [Event.Error UserRequest.sendMessage]
    ∧ (act (r :: rooms) draw true SendMessageResponse.otherError
          elapsed).events = [] := by
  cases b <;>
    simp [create_room, join_room, register, login, act]

/-- C7 counterexample: with the aggregator channel closed, `User::send`
merely logs and continues; it does not abort the run as the claim requires
of every producer. -/
theorem user_send_ignores_closed_channel :
    user_send false = SendOutcome.continued
    ∧ SendOutcome.continued ≠ SendOutcome.panicked := by decide

/-- C7 amended: when the aggregator channel is closed, the `expect`-style
sends of `State::act` (AllMessagesSent), `State::waiting_period` (Finish)
and `on_room_message` (MessageReceived) panic and so abort the run, while
`User::send` logs the dropped receiver and continues; with the channel
open, all producers continue normally. -/
theorem channel_closed_behavior :
    send_expect false = SendOutcome.panicked
    ∧ user_send false = SendOutcome.continued
    ∧ send_expect true = SendOutcome.continued
    ∧ user_send true = SendOutcome.continued := by decide

theorem reservoir_fold_spec (draws : Nat → Nat) (amount : Nat) :
    ∀ (len a : Nat) (buf : List Nat),
      buf.Nodup → (∀ x ∈ buf, x < a) →
      (((List.range' a len).foldl
          (fun b i => reservoir_insert amount i (draws i % (i + 1)) b)
          buf).length = buf.length
        ∧ ((List.range' a len).foldl
            (fun b i => reservoir_insert amount i (draws i % (i + 1)) b)
            buf).Nodup
        ∧ ∀ x ∈ (List.range' a len).foldl
            (fun b i => reservoir_insert amount i (draws i % (i + 1)) b)
            buf, x < a + len) := by
  intro len
  induction len with
  | zero =>
    intro a buf hnd hbound
    simpa using ⟨hnd, hbound⟩
  | succ len ih =>
    intro a buf hnd hbound
    rw [List.range'_succ, List.foldl_cons]
    have hne : a ∉ buf := fun hmem => Nat.lt_irrefl a (hbound a hmem)
    have hstep :
        (reservoir_insert amount a (draws a % (a + 1)) buf).length = buf.length
          ∧ (reservoir_insert amount a (draws a % (a + 1)) buf).Nodup
          ∧ ∀ x ∈ reservoir_insert amount a (draws a % (a + 1)) buf,
              x < a + 1 := by
      unfold reservoir_insert
      split
      · refine ⟨by simp, hnd.set hne, ?_⟩
        intro x hx
        rcases List.mem_or_eq_of_mem_set hx with hx | rfl
        · exact Nat.lt_succ_of_lt (hbound x hx)
        · omega
      · exact ⟨rfl, hnd, fun x hx => Nat.lt_succ_of_lt (hbound x hx)⟩
    obtain ⟨hlen2, hnd2, hbound2⟩ := hstep
    obtain ⟨hl, hn, hb⟩ := ih (a + 1)
      (reservoir_insert amount a (draws a % (a + 1)) buf) hnd2 hbound2
    refine ⟨hl.trans hlen2, hn, ?_⟩
    intro x hx
    have := hb x hx
    omega

theorem choose_multiple_spec (draws : Nat → Nat) (n amount : Nat) :
    (choose_multiple draws n amount).length = min amount n
    ∧ (choose_multiple draws n amount).Nodup
    ∧ ∀ x ∈ choose_multiple draws n amount, x < max amount n := by
  have hinit : (List.range (min amount n)).Nodup := List.nodup_range _
  have hbound : ∀ x ∈ List.range (min amount n), x < amount := by
    intro x hx
    have := List.mem_range.mp hx
    omega
  obtain ⟨hl, hn, hb⟩ :=
    reservoir_fold_spec draws amount (n - amount) amount
      (List.range (min amount n)) hinit hbound
  refine ⟨by simpa using hl, hn, ?_⟩
  intro x hx
  have := hb x hx
  omega

/-- C5: in every tick of the run phase, the selection of `State::act`
contains exactly `min(population, maxUsersPerTick)` users (so never more),
the selected users are pairwise distinct, every selected user belongs to
the population, and the spawning loop creates exactly one task per
selected user, so no user is driven twice within the same tick. -/
theorem tick_selection_spec (draws : Nat → Nat) (n max_per_tick : Nat) :
    (tick_selection draws n max_per_tick).length = min n max_per_tick
    ∧ (tick_selection draws n max_per_tick).Nodup
    ∧ (∀ u ∈ tick_selection draws n max_per_tick, u < n)
    ∧ (tick_spawn (tick_selection draws n max_per_tick)).length
        = (tick_selection draws n max_per_tick).length
    ∧ (tick_spawn (tick_selection draws n max_per_tick)).map SpawnedTask.user
        = tick_selection draws n max_per_tick := by
  obtain ⟨hl, hn, hb⟩ :=
    choose_multiple_spec draws n (users_to_act n max_per_tick)
  have hlen : (tick_selection draws n max_per_tick).length
      = min n max_per_tick := by
    rw [tick_selection, hl, users_to_act]
    omega
  refine ⟨hlen, hn, ?_, by simp [tick_spawn], ?_⟩
  · intro u hu
    have hu2 := hb u (by simpa [tick_selection] using hu)
    rw [users_to_act] at hu2
    omega
  · rw [tick_spawn, List.map_map]
    have hid : (SpawnedTask.user ∘ SpawnedTask.mk) = id := rfl
    rw [hid, List.map_id]

theorem waiting_period_loop_spec (ar : Nat → Bool) (wt : Nat) :
    ∀ (k e : Nat), wt - e ≤ k → e ≤ wt →
      e ≤ waiting_period_loop ar wt e
      ∧ waiting_period_loop ar wt e ≤ wt
      ∧ (ar (waiting_period_loop ar wt e) = true
          ∨ waiting_period_loop ar wt e = wt)
      ∧ ∀ u, e ≤ u → u < waiting_period_loop ar wt e → ar u = false := by
  intro k
  induction k with
  | zero =>
    intro e hk he
    have hew : e = wt := by omega
    rw [waiting_period_loop]
    by_cases har : ar e = true
    · rw [if_pos har]
      exact ⟨Nat.le_refl e, he, Or.inl har, fun u hu1 hu2 => by omega⟩
    · rw [if_neg har, dif_pos (by omega : wt ≤ e)]
      exact ⟨Nat.le_refl e, he, Or.inr hew, fun u hu1 hu2 => by omega⟩
  | succ k ih =>
    intro e hk he
    rw [waiting_period_loop]
    by_cases har : ar e = true
    · rw [if_pos har]
      exact ⟨Nat.le_refl e, he, Or.inl har, fun u hu1 hu2 => by omega⟩
    · rw [if_neg har]
      by_cases hwt : wt ≤ e
      · rw [dif_pos hwt]
        exact ⟨Nat.le_refl e, he, Or.inr (by omega), fun u hu1 hu2 => by omega⟩
      · rw [dif_neg hwt]
        obtain ⟨h1, h2, h3, h4⟩ := ih (e + 1) (by omega) (by omega)
        refine ⟨by omega, h2, h3, ?_⟩
        intro u hu1 hu2
        rcases Nat.eq_or_lt_of_le hu1 with rfl | hu3
        · exact Bool.not_eq_true _ ▸ eq_false_of_ne_true har
        · exact h4 u (by omega) hu2

/-- C8: the teardown wait always terminates no later than the configured
waiting period, it exits at the first second at which
`all_messages_received` holds (or at the deadline, whichever comes first,
every earlier poll having returned false), and it then sends exactly one
`Finish` event. -/
theorem waiting_period_spec (all_received : Nat → Bool) (waiting_time : Nat) :
    (waiting_period all_received waiting_time).1 ≤ waiting_time
    ∧ (all_received (waiting_period all_received waiting_time).1 = true
        ∨ (waiting_period all_received waiting_time).1 = waiting_time)
    ∧ (∀ u, u < (waiting_period all_received waiting_time).1 →
        all_received u = false)
    ∧ (waiting_period all_received waiting_time).2 = [Event.Finish] := by
  obtain ⟨h1, h2, h3, h4⟩ :=
    waiting_period_loop_spec all_received waiting_time waiting_time 0
      (by omega) (by omega)
  exact ⟨h2, h3, fun u hu => h4 u (by omega) hu, rfl⟩
